import Mathlib

/-!
# PC Explorer USB protocol server — verification of the protocol core

A shallow embedding of the protocol engine of the PC Explorer server
(`pc-server/protocol.py`, `pc-server/server.py`, `pc-server/file_handler.py`):
packet framing with CRC-32 integrity checking, payload serialization, the
command dispatcher, chunked READ_FILE / WRITE_FILE streaming, the streaming
receive procedures, the search result cap, and the connection-mode
acquisition state machine.

Bytes are modelled as `Nat` (each `< 256` where it matters), byte strings as
`List Nat`. Filesystem and transport collaborators are abstracted as
parameters (functions / structures), exactly the external surface the Python
code calls into; everything else is translated from the source.
-/

set_option maxRecDepth 40000

namespace PCExplorer

/-! ## Little-endian integer encodings (`struct.pack`/`unpack` with `<I`, `<Q`) -/

/-- `struct.pack("<I", x)`: 4 little-endian bytes. -/
def u32le (x : Nat) : List Nat :=
  [x % 256, x / 256 % 256, x / 65536 % 256, x / 16777216 % 256]

/-- `struct.unpack("<I", b)[0]` for a buffer holding at least 4 bytes. -/
def u32dec (l : List Nat) : Nat :=
  match l with
  | b0 :: b1 :: b2 :: b3 :: _ => b0 + 256 * b1 + 65536 * b2 + 16777216 * b3
  | _ => 0

/-- `struct.pack("<Q", x)`: 8 little-endian bytes. -/
def u64le (x : Nat) : List Nat :=
  [x % 256, x / 256 % 256, x / 65536 % 256, x / 16777216 % 256,
   x / 4294967296 % 256, x / 1099511627776 % 256,
   x / 281474976710656 % 256, x / 72057594037927936 % 256]

theorem length_u32le (x : Nat) : (u32le x).length = 4 := rfl

theorem length_u64le (x : Nat) : (u64le x).length = 8 := rfl

theorem u32dec_u32le (x : Nat) (h : x < 4294967296) : u32dec (u32le x) = x := by
  simp only [u32le, u32dec]
  omega

/-! ## CRC-32 (zlib.crc32: ISO-HDLC, polynomial 0xEDB88320, seed and final
xor 0xFFFFFFFF) -/

/-- One shift step of the reflected CRC-32 bit loop. -/
def crc32_step (c : Nat) : Nat :=
  if c % 2 = 1 then Nat.xor (c / 2) 0xEDB88320 else c / 2

/-- Fold one input byte into the running CRC (xor in, then 8 bit steps). -/
def crc32_update (c b : Nat) : Nat := crc32_step^[8] (Nat.xor c b)

/-- `zlib.crc32(data) & 0xFFFFFFFF`. -/
def crc32 (data : List Nat) : Nat :=
  Nat.xor (data.foldl crc32_update 0xFFFFFFFF) 0xFFFFFFFF % 4294967296

theorem crc32_lt (data : List Nat) : crc32 data < 4294967296 := by
  simp only [crc32]
  omega

theorem crc32_nil : crc32 [] = 0 := by decide

/-- Standard CRC-32 check value on the ASCII bytes of `123456789`. -/
theorem crc32_check_vector :
    crc32 [0x31, 0x32, 0x33, 0x34, 0x35, 0x36, 0x37, 0x38, 0x39] = 0xCBF43926 := by
  decide

/-! ## The wire packet (`protocol.py`, class `Packet`) -/

/-- The 4-byte magic `b"PCEX"`. -/
def MAGICbytes : List Nat := [0x50, 0x43, 0x45, 0x58]

/-- Command byte constants (`protocol.py`, `Command`). -/
def HANDSHAKE : Nat := 0x01
def LIST_DIR : Nat := 0x02
def GET_FILE_INFO : Nat := 0x03
def READ_FILE : Nat := 0x04
def WRITE_FILE : Nat := 0x05
def CREATE_DIR : Nat := 0x06
def DELETE : Nat := 0x07
def RENAME : Nat := 0x08
def SEARCH : Nat := 0x09
def GET_DRIVES : Nat := 0x0A
def GET_STORAGE_INFO : Nat := 0x0B
def DISCONNECT : Nat := 0xFF
def RESPONSE_OK : Nat := 0x80
def RESPONSE_ERROR : Nat := 0x81
def RESPONSE_DATA : Nat := 0x82
def RESPONSE_FILE_CHUNK : Nat := 0x83
def RESPONSE_END : Nat := 0x84

/-- Flag bits (`protocol.py`, `Flags`). -/
def FLAG_CONTINUATION : Nat := 0x04
def FLAG_FINAL : Nat := 0x08

/-- Error codes (`protocol.py`, `ErrorCode`). -/
def EC_UNKNOWN_COMMAND : Nat := 1
def EC_FILE_NOT_FOUND : Nat := 3
def EC_PERMISSION_DENIED : Nat := 4
def EC_ALREADY_EXISTS : Nat := 5
def EC_IO_ERROR : Nat := 8
def EC_PROTOCOL_ERROR : Nat := 10

/-- A protocol packet (`protocol.py`, `@dataclass Packet`). -/
structure Packet where
  command : Nat
  flags : Nat
  payload : List Nat
deriving DecidableEq

/-- `Packet.to_bytes`: magic, command, flags, `u32` payload length, payload,
then the CRC-32 of everything so far, little-endian. -/
def Packet.to_bytes (p : Packet) : List Nat :=
  let data := MAGICbytes ++ [p.command, p.flags] ++ u32le p.payload.length ++ p.payload
  data ++ u32le (crc32 data)

/-- `Packet.from_bytes`: parse and validate a fully buffered packet; `none`
for short buffers, bad magic, or checksum mismatch. -/
def Packet.from_bytes (data : List Nat) : Option Packet :=
  if data.length < 14 then none
  else
    match data with
    | m0 :: m1 :: m2 :: m3 :: cmd :: fl :: l0 :: l1 :: l2 :: l3 :: rest =>
      if [m0, m1, m2, m3] = MAGICbytes then
        let payload_length := u32dec [l0, l1, l2, l3]
        if data.length < 14 + payload_length then none
        else
          let payload := rest.take payload_length
          let received_checksum := u32dec ((rest.drop payload_length).take 4)
          let calculated_checksum := crc32 (data.take (10 + payload_length))
          if received_checksum = calculated_checksum then
            some ⟨cmd, fl, payload⟩
          else none
      else none
    | _ => none

/-- The encoded form of a packet written out byte by byte. -/
theorem to_bytes_shape (c f : Nat) (pl : List Nat) :
    Packet.to_bytes ⟨c, f, pl⟩ =
      0x50 :: 0x43 :: 0x45 :: 0x58 :: c :: f ::
      (pl.length % 256) :: (pl.length / 256 % 256) ::
      (pl.length / 65536 % 256) :: (pl.length / 16777216 % 256) ::
      (pl ++ u32le (crc32 (0x50 :: 0x43 :: 0x45 :: 0x58 :: c :: f ::
        (pl.length % 256) :: (pl.length / 256 % 256) ::
        (pl.length / 65536 % 256) :: (pl.length / 16777216 % 256) :: pl))) := by
  simp [Packet.to_bytes, MAGICbytes, u32le]

theorem take_ten_cons (a b c d e f g h i j k : Nat) (rest : List Nat) :
    (a :: b :: c :: d :: e :: f :: g :: h :: i :: j :: rest).take (10 + k)
      = a :: b :: c :: d :: e :: f :: g :: h :: i :: j :: rest.take k := by
  have hk : 10 + k = (((((((((k + 1) + 1) + 1) + 1) + 1) + 1) + 1) + 1) + 1) + 1 := by omega
  rw [hk]
  simp [List.take_succ_cons]

theorem take_length_append {α : Type} (l t : List α) : (l ++ t).take l.length = l := by
  simp

theorem drop_length_append {α : Type} (l t : List α) : (l ++ t).drop l.length = t := by
  simp

/-- Decoding an encoded packet recovers the packet (general round trip). -/
theorem from_bytes_to_bytes (p : Packet)
    (hc : p.command < 256) (hf : p.flags < 256)
    (hlen : p.payload.length ≤ 65522) (hb : ∀ b ∈ p.payload, b < 256) :
    Packet.from_bytes (Packet.to_bytes p) = some p := by
  obtain ⟨c, f, pl⟩ := p
  have hlen' : pl.length ≤ 65522 := hlen
  have h32 : pl.length < 4294967296 := by omega
  have hmagic : ([80, 67, 69, 88] : List Nat) = MAGICbytes := rfl
  have hfold : [pl.length % 256, pl.length / 256 % 256, pl.length / 65536 % 256,
      pl.length / 16777216 % 256] = u32le pl.length := rfl
  have hchk : ∀ x : Nat, (u32le x).take 4 = u32le x := fun _ => rfl
  rw [to_bytes_shape]
  unfold Packet.from_bytes
  rw [if_neg (by
    simp only [List.length_cons, List.length_append, length_u32le]
    omega)]
  dsimp only
  rw [if_pos hmagic, hfold, u32dec_u32le pl.length h32]
  rw [if_neg (by
    simp only [List.length_cons, List.length_append, length_u32le]
    omega)]
  rw [take_length_append, drop_length_append, take_ten_cons, take_length_append]
  rw [hchk, u32dec_u32le _ (crc32_lt _), if_pos rfl]

theorem drop_ten_cons (a b c d e f g h i j k : Nat) (rest : List Nat) :
    (a :: b :: c :: d :: e :: f :: g :: h :: i :: j :: rest).drop (10 + k)
      = rest.drop k := by
  have hk : 10 + k = (((((((((k + 1) + 1) + 1) + 1) + 1) + 1) + 1) + 1) + 1) + 1 := by omega
  rw [hk]
  simp [List.drop_succ_cons]

/-- The trailing four bytes of an encoded packet are the little-endian CRC-32
of all the preceding bytes. -/
theorem to_bytes_checksum (p : Packet) :
    (Packet.to_bytes p).drop (10 + p.payload.length)
      = u32le (crc32 ((Packet.to_bytes p).take (10 + p.payload.length))) := by
  obtain ⟨c, f, pl⟩ := p
  rw [to_bytes_shape]
  rw [take_ten_cons, drop_ten_cons, take_length_append, drop_length_append]

/-- A fully buffered frame whose trailing four bytes do not decode to the
CRC-32 of the preceding bytes is rejected by `Packet.from_bytes`. -/
theorem from_bytes_checksum_reject
    (m0 m1 m2 m3 cmd fl l0 l1 l2 l3 : Nat) (rest : List Nat)
    (hfull : rest.length = 4 + u32dec [l0, l1, l2, l3])
    (hbad : u32dec ((rest.drop (u32dec [l0, l1, l2, l3])).take 4)
      ≠ crc32 ((m0 :: m1 :: m2 :: m3 :: cmd :: fl :: l0 :: l1 :: l2 :: l3 :: rest).take
          (10 + u32dec [l0, l1, l2, l3]))) :
    Packet.from_bytes (m0 :: m1 :: m2 :: m3 :: cmd :: fl :: l0 :: l1 :: l2 :: l3 :: rest)
      = none := by
  unfold Packet.from_bytes
  rw [if_neg (by simp only [List.length_cons]; omega)]
  dsimp only
  by_cases hm : [m0, m1, m2, m3] = MAGICbytes
  · rw [if_pos hm]
    rw [if_neg (by simp only [List.length_cons]; omega)]
    rw [if_neg hbad]
  · rw [if_neg hm]

/-! ## Payload serialization (`protocol.py`, `PayloadSerializer`) -/

/-- A directory entry as produced by the filesystem collaborator
(`file_handler.py` returns dicts with these five fields; strings are kept as
their UTF-8 bytes). -/
structure FileItem where
  name : List Nat
  path : List Nat
  isDir : Bool
  size : Nat
  lastModified : Nat
deriving DecidableEq

/-- `PayloadSerializer.serialize_file_item`. -/
def serialize_file_item (it : FileItem) : List Nat :=
  u32le it.name.length ++ it.name ++ u32le it.path.length ++ it.path
    ++ [if it.isDir then 1 else 0] ++ u64le it.size ++ u64le it.lastModified

/-- `PayloadSerializer.serialize_file_list`: `u32` item count then the items. -/
def serialize_file_list (l : List FileItem) : List Nat :=
  u32le l.length ++ (l.map serialize_file_item).flatten

/-- `PayloadSerializer.serialize_drive_list`. -/
def serialize_drive_list (ds : List (List Nat)) : List Nat :=
  u32le ds.length ++ (ds.map (fun d => u32le d.length ++ d)).flatten

/-- `PayloadSerializer.serialize_storage_info`. -/
def serialize_storage_info (total free : Nat) (drive volume : List Nat) : List Nat :=
  u64le total ++ u64le free ++ u32le drive.length ++ drive ++ u32le volume.length ++ volume

/-- `PayloadSerializer.serialize_error`: `u32` code, `u32` message length,
message bytes. -/
def serialize_error (code : Nat) (msg : List Nat) : List Nat :=
  u32le code ++ u32le msg.length ++ msg

/-! ## UTF-8 validity (Python `bytes.decode("utf-8")` succeeds exactly on
RFC 3629 UTF-8: no overlongs, no surrogates, up to U+10FFFF) -/

/-- A UTF-8 continuation byte. -/
def contByte (b : Nat) : Bool := decide (0x80 ≤ b ∧ b ≤ 0xBF)

/-- Whether a byte sequence is valid UTF-8. -/
def utf8Valid : List Nat → Bool
  | [] => true
  | b :: rest =>
    if b ≤ 0x7F then utf8Valid rest
    else if 0xC2 ≤ b ∧ b ≤ 0xDF then
      match rest with
      | c1 :: r => contByte c1 && utf8Valid r
      | [] => false
    else if 0xE0 ≤ b ∧ b ≤ 0xEF then
      match rest with
      | c1 :: c2 :: r =>
        (if b = 0xE0 then decide (0xA0 ≤ c1 ∧ c1 ≤ 0xBF)
         else if b = 0xED then decide (0x80 ≤ c1 ∧ c1 ≤ 0x9F)
         else contByte c1) && contByte c2 && utf8Valid r
      | _ => false
    else if 0xF0 ≤ b ∧ b ≤ 0xF4 then
      match rest with
      | c1 :: c2 :: c3 :: r =>
        (if b = 0xF0 then decide (0x90 ≤ c1 ∧ c1 ≤ 0xBF)
         else if b = 0xF4 then decide (0x80 ≤ c1 ∧ c1 ≤ 0x8F)
         else contByte c1) && contByte c2 && contByte c3 && utf8Valid r
      | _ => false
    else false

/-! ## Payload deserialization (`protocol.py`, `PayloadSerializer`).

Python raises `struct.error` on a short buffer and `UnicodeDecodeError` on
invalid UTF-8; both land in the dispatcher's generic `except` clause. The
exceptions are modelled by `Except`-failure; the exception message text is
abstracted as the empty byte string. -/

/-- A raised Python exception, as seen by the dispatcher's `except` clauses:
the constructor selects the clause, the field is `str(e)` as UTF-8 bytes. -/
inductive PyErr where
  | fileNotFound : List Nat → PyErr
  | permissionDenied : List Nat → PyErr
  | fileExists : List Nat → PyErr
  | other : List Nat → PyErr
deriving DecidableEq

/-- `PayloadSerializer.deserialize_path`. -/
def deserialize_path (data : List Nat) : Except PyErr (List Nat) :=
  if data.length < 4 then .error (.other [])
  else
    let length := u32dec (data.take 4)
    let raw := (data.drop 4).take length
    if utf8Valid raw then .ok raw else .error (.other [])

/-- `PayloadSerializer.deserialize_rename`: length-prefixed path then new name. -/
def deserialize_rename (data : List Nat) : Except PyErr (List Nat × List Nat) :=
  if data.length < 4 then .error (.other [])
  else
    let path_len := u32dec (data.take 4)
    let path := (data.drop 4).take path_len
    if utf8Valid path then
      if data.length < 8 + path_len then .error (.other [])
      else
        let name_len := u32dec ((data.drop (4 + path_len)).take 4)
        let new_name := (data.drop (8 + path_len)).take name_len
        if utf8Valid new_name then .ok (path, new_name) else .error (.other [])
    else .error (.other [])

/-- `PayloadSerializer.deserialize_search`: length-prefixed query then path. -/
def deserialize_search (data : List Nat) : Except PyErr (List Nat × List Nat) :=
  if data.length < 4 then .error (.other [])
  else
    let query_len := u32dec (data.take 4)
    let query := (data.drop 4).take query_len
    if utf8Valid query then
      if data.length < 8 + query_len then .error (.other [])
      else
        let path_len := u32dec ((data.drop (4 + query_len)).take 4)
        let path := (data.drop (8 + query_len)).take path_len
        if utf8Valid path then .ok (query, path) else .error (.other [])
    else .error (.other [])

/-! ## Search result cap (`file_handler.py`, `FileHandler.search_files`)

`os.walk`, the hidden-directory pruning, the case-insensitive substring
match and `os.stat` are external I/O; they are abstracted as a stream of
candidates, each carrying whether the name matched the query and the stat
outcome (`none` models a `PermissionError`/`OSError` that the code skips).
The loop and the 100-result cap are translated from the source. -/

/-- One traversal candidate: did `query.lower() in name.lower()` hold, and
the `os.stat` outcome. -/
abbrev SearchCand := Bool × Option FileItem

/-- The body of `search_files`: append each matching, stat-able candidate and
return as soon as 100 results have accumulated (`max_results = 100`). -/
def search_loop : List SearchCand → List FileItem → List FileItem
  | [], results => results
  | (isMatch, st) :: rest, results =>
    if isMatch then
      match st with
      | none => search_loop rest results
      | some it =>
        let results' := results ++ [it]
        if 100 ≤ results'.length then results' else search_loop rest results'
    else search_loop rest results

/-- `FileHandler.search_files` over an abstract walk stream. -/
def search_files (walk : List SearchCand) : List FileItem :=
  search_loop walk []

/-! ## The filesystem collaborator and the request dispatcher
(`server.py`, `UsbServer._handle_packet` and the per-command handlers) -/

/-- The `FileHandler` collaborator as the dispatcher sees it: every operation
either returns a value or raises. `searchWalk` is the abstract `os.walk`
candidate stream consumed by `search_files`. -/
structure FileHandler where
  listDirectory : List Nat → Except PyErr (List FileItem)
  getFileInfo : List Nat → Except PyErr FileItem
  createDirectory : List Nat → Except PyErr FileItem
  delete : List Nat → Except PyErr Unit
  rename : List Nat → List Nat → Except PyErr FileItem
  searchWalk : List Nat → List Nat → List SearchCand
  getDrives : Except PyErr (List (List Nat))
  getStorageInfo : List Nat → Except PyErr (Nat × Nat × List Nat × List Nat)

/-- `UsbServer._error_response`. -/
def error_response (code : Nat) (msg : List Nat) : Packet :=
  ⟨RESPONSE_ERROR, 0, serialize_error code msg⟩

/-- The fixed server identity payload `b"PCEX-Server-1.0"`. -/
def serverIdentity : List Nat :=
  [0x50, 0x43, 0x45, 0x58, 0x2D, 0x53, 0x65, 0x72, 0x76, 0x65, 0x72, 0x2D, 0x31, 0x2E, 0x30]

/-- Abstraction of `str(UnicodeDecodeError)` (free-text, never inspected). -/
def unicodeDecodeMsg : List Nat := []

/-- ASCII decimal digits of a natural number (Python `str(int)`). -/
def decDigits (n : Nat) : List Nat := (Nat.toDigits 10 n).map Char.toNat

/-- The bytes of `f"Unknown command: {command}"`. -/
def unknownCommandMsg (command : Nat) : List Nat :=
  [85, 110, 107, 110, 111, 119, 110, 32, 99, 111, 109, 109, 97, 110, 100, 58, 32]
    ++ decDigits command

/-- `UsbServer._handle_handshake`: decode the client identity (UTF-8, may
raise) and answer with the fixed server identity. -/
def handle_handshake (p : Packet) : Except PyErr Packet :=
  if utf8Valid p.payload then .ok ⟨RESPONSE_OK, 0, serverIdentity⟩
  else .error (.other unicodeDecodeMsg)

/-- `UsbServer._handle_list_dir`. -/
def handle_list_dir (fs : FileHandler) (p : Packet) : Except PyErr Packet := do
  let path ← deserialize_path p.payload
  let files ← fs.listDirectory path
  pure ⟨RESPONSE_DATA, 0, serialize_file_list files⟩

/-- `UsbServer._handle_get_file_info`: the one-item file-list encoding with
its last four bytes sliced off (`[: len - 4]`). -/
def handle_get_file_info (fs : FileHandler) (p : Packet) : Except PyErr Packet := do
  let path ← deserialize_path p.payload
  let info ← fs.getFileInfo path
  pure ⟨RESPONSE_DATA, 0,
    (serialize_file_list [info]).take ((serialize_file_list [info]).length - 4)⟩

/-- `UsbServer._handle_create_dir`. -/
def handle_create_dir (fs : FileHandler) (p : Packet) : Except PyErr Packet := do
  let path ← deserialize_path p.payload
  let info ← fs.createDirectory path
  pure ⟨RESPONSE_DATA, 0, serialize_file_item info⟩

/-- `UsbServer._handle_delete`. -/
def handle_delete (fs : FileHandler) (p : Packet) : Except PyErr Packet := do
  let path ← deserialize_path p.payload
  let _ ← fs.delete path
  pure ⟨RESPONSE_OK, 0, []⟩

/-- `UsbServer._handle_rename`. -/
def handle_rename (fs : FileHandler) (p : Packet) : Except PyErr Packet := do
  let r ← deserialize_rename p.payload
  let info ← fs.rename r.1 r.2
  pure ⟨RESPONSE_DATA, 0, serialize_file_item info⟩

/-- `UsbServer._handle_search`. -/
def handle_search (fs : FileHandler) (p : Packet) : Except PyErr Packet := do
  let r ← deserialize_search p.payload
  pure ⟨RESPONSE_DATA, 0, serialize_file_list (search_files (fs.searchWalk r.1 r.2))⟩

/-- `UsbServer._handle_get_drives`. -/
def handle_get_drives (fs : FileHandler) (_p : Packet) : Except PyErr Packet := do
  let drives ← fs.getDrives
  pure ⟨RESPONSE_DATA, 0, serialize_drive_list drives⟩

/-- `UsbServer._handle_get_storage_info`. -/
def handle_get_storage_info (fs : FileHandler) (p : Packet) : Except PyErr Packet := do
  let path ← if p.payload = [] then pure [] else deserialize_path p.payload
  let r ← fs.getStorageInfo path
  pure ⟨RESPONSE_DATA, 0, serialize_storage_info r.1 r.2.1 r.2.2.1 r.2.2.2⟩

/-- `UsbServer._handle_packet`: the command dispatch chain together with the
`except` clauses mapping raised errors to `RESPONSE_ERROR` packets. The
READ_FILE / WRITE_FILE handlers stream over the channel and are passed in as
`rfh` / `wfh` (their loops are modelled separately below). -/
def handle_packet (fs : FileHandler) (rfh wfh : Packet → Except PyErr Packet)
    (p : Packet) : Packet :=
  let r : Except PyErr Packet :=
    if p.command = HANDSHAKE then handle_handshake p
    else if p.command = LIST_DIR then handle_list_dir fs p
    else if p.command = GET_FILE_INFO then handle_get_file_info fs p
    else if p.command = READ_FILE then rfh p
    else if p.command = WRITE_FILE then wfh p
    else if p.command = CREATE_DIR then handle_create_dir fs p
    else if p.command = DELETE then handle_delete fs p
    else if p.command = RENAME then handle_rename fs p
    else if p.command = SEARCH then handle_search fs p
    else if p.command = GET_DRIVES then handle_get_drives fs p
    else if p.command = GET_STORAGE_INFO then handle_get_storage_info fs p
    else if p.command = DISCONNECT then .ok ⟨RESPONSE_OK, 0, []⟩
    else .ok (error_response EC_UNKNOWN_COMMAND (unknownCommandMsg p.command))
  match r with
  | .ok resp => resp
  | .error (.fileNotFound m) => error_response EC_FILE_NOT_FOUND m
  | .error (.permissionDenied m) => error_response EC_PERMISSION_DENIED m
  | .error (.fileExists m) => error_response EC_ALREADY_EXISTS m
  | .error (.other m) => error_response EC_IO_ERROR m

/-! ## READ_FILE chunking (`server.py`, `UsbServer._handle_read_file`)

The file is abstracted as its content bytes; `FileHandler.get_file_info`
supplies `size = file.length` and `FileHandler.read_file_chunk` is a
seek-and-read slice. -/

/-- Chunk size for file transfers (`CHUNK_SIZE = 32 * 1024`). -/
def CHUNK_SIZE : Nat := 32768

/-- `FileHandler.read_file_chunk`: seek to `offset`, read `length` bytes. -/
def read_file_chunk (file : List Nat) (offset length : Nat) : List Nat :=
  (file.drop offset).take length

/-- The chunk-emission loop of `_handle_read_file`: while bytes remain, send
a `RESPONSE_FILE_CHUNK` of at most 32 KiB, flagged `FINAL` on the last chunk
and `CONTINUATION` otherwise. -/
def read_chunks (file : List Nat) (offset remaining : Nat) : List Packet :=
  if remaining = 0 then []
  else
    let chunk_size := min CHUNK_SIZE remaining
    let chunk_data := read_file_chunk file offset chunk_size
    let is_last := remaining ≤ chunk_size
    ⟨RESPONSE_FILE_CHUNK, if is_last then FLAG_FINAL else FLAG_CONTINUATION, chunk_data⟩
      :: read_chunks file (offset + chunk_size) (remaining - chunk_size)
termination_by remaining
decreasing_by
  rename_i h
  have hcs : CHUNK_SIZE = 32768 := rfl
  omega

/-- `UsbServer._handle_read_file`: compute the byte range, emit the chunk
packets over the channel, and return the terminal `RESPONSE_END` packet. -/
def handle_read_file (file : List Nat) (offset : Nat) (length : Int) :
    List Packet × Packet :=
  let total_size : Int := (file.length : Int)
  let length := if length < 0 then total_size else length
  let remaining : Int := min length (total_size - (offset : Int))
  (read_chunks file offset remaining.toNat, ⟨RESPONSE_END, 0, []⟩)

/-! ## WRITE_FILE receive loop (`server.py`, `UsbServer._handle_write_file`)

The channel is abstracted as the sequence of `_receive_data` results; the
writes performed through `FileHandler.write_file_chunk` are recorded as
events carrying the Python call's `offset` and `create` arguments. -/

/-- The bytes of `"Connection lost during transfer"`. -/
def connectionLostMsg : List Nat :=
  [67, 111, 110, 110, 101, 99, 116, 105, 111, 110, 32, 108, 111, 115, 116, 32,
   100, 117, 114, 105, 110, 103, 32, 116, 114, 97, 110, 115, 102, 101, 114]

/-- The bytes of `"Invalid chunk packet"`. -/
def invalidChunkMsg : List Nat :=
  [73, 110, 118, 97, 108, 105, 100, 32, 99, 104, 117, 110, 107, 32, 112, 97,
   99, 107, 101, 116]

/-- One `write_file_chunk(path, data, offset, create)` call. -/
structure WriteEvent where
  offset : Nat
  data : List Nat
  create : Bool
deriving DecidableEq

/-- The chunk-receive loop of `_handle_write_file`: while fewer than
`total_size` bytes have arrived, receive a frame, decode it, write its
payload at the running offset, and stop early on a `FINAL` flag. -/
def write_loop (datas : List (Option (List Nat))) (received total_size : Nat) :
    List WriteEvent × Packet :=
  if received < total_size then
    match datas with
    | [] => ([], error_response EC_IO_ERROR connectionLostMsg)
    | none :: _ => ([], error_response EC_IO_ERROR connectionLostMsg)
    | some d :: rest =>
      match Packet.from_bytes d with
      | none => ([], error_response EC_PROTOCOL_ERROR invalidChunkMsg)
      | some chunk_packet =>
        let ev : WriteEvent := ⟨received, chunk_packet.payload, received == 0⟩
        if chunk_packet.flags &&& FLAG_FINAL ≠ 0 then ([ev], ⟨RESPONSE_OK, 0, []⟩)
        else
          let r := write_loop rest (received + chunk_packet.payload.length) total_size
          (ev :: r.1, r.2)
  else ([], ⟨RESPONSE_OK, 0, []⟩)

/-- `UsbServer._handle_write_file` after the header has been parsed and the
readiness `RESPONSE_OK` sent: the loop starting from zero bytes received. -/
def handle_write_file (datas : List (Option (List Nat))) (total_size : Nat) :
    List WriteEvent × Packet :=
  write_loop datas 0 total_size

/-! ## Streaming receive (`server.py`, `UsbServer._receive_data`,
`UsbServer._recv_exact`, `UsbServer._receive_packet_data`)

A TCP channel is a queue of pending arrivals (byte segments). `recv n`
returns at most `n` bytes from the front arrival, leaving any remainder
buffered; an exhausted queue (or an empty segment) is a zero-length read,
i.e. the peer closed the connection. -/

/-- `socket.recv(n)` over the abstract channel. -/
def recv (n : Nat) (ch : List (List Nat)) : List Nat × List (List Nat) :=
  match ch with
  | [] => ([], [])
  | seg :: rest => if seg.length ≤ n then (seg, rest) else (seg.take n, seg.drop n :: rest)

theorem recv_length_le (n : Nat) (ch : List (List Nat)) : (recv n ch).1.length ≤ n := by
  cases ch with
  | nil => simp [recv]
  | cons seg rest =>
    simp only [recv]
    split
    · rename_i h; simpa using h
    · simp only [List.length_take]; omega

/-- The payload-and-checksum loop of `_receive_data`: keep calling
`recv(min(remaining, 4096))` and appending until `remaining` bytes have been
read; a zero-length read aborts with `none`. (The single `recv` call of each
Python iteration is written out at each use site; `recv` is pure.) -/
def recv_loop (ch : List (List Nat)) (acc : List Nat) (remaining : Nat) :
    Option (List Nat) × List (List Nat) :=
  if remaining = 0 then (some acc, ch)
  else
    if h : (recv (min remaining 4096) ch).1.length = 0 then
      (none, (recv (min remaining 4096) ch).2)
    else
      recv_loop (recv (min remaining 4096) ch).2
        (acc ++ (recv (min remaining 4096) ch).1)
        (remaining - (recv (min remaining 4096) ch).1.length)
termination_by remaining
decreasing_by
  rename_i hrem
  have h2 : (recv (min remaining 4096) ch).1.length ≤ min remaining 4096 :=
    recv_length_le _ _
  omega

/-- `UsbServer._receive_data` (TCP path): one `recv(10)` for the header —
returning `none` if it comes back short — then the byte-exact loop for
`payload_length + 4` more bytes. -/
def receive_data (ch : List (List Nat)) : Option (List Nat) × List (List Nat) :=
  if (recv 10 ch).1.length = 0 then (none, (recv 10 ch).2)
  else if (recv 10 ch).1.length < 10 then (none, (recv 10 ch).2)
  else
    recv_loop (recv 10 ch).2 (recv 10 ch).1
      (u32dec (((recv 10 ch).1.drop 6).take 4) + 4)

/-- `UsbServer._recv_exact`: loop `recv(count - len(data))` until `count`
bytes have accumulated; a zero-length read aborts with `none`. -/
def recv_exact_go (ch : List (List Nat)) (data : List Nat) (count : Nat) :
    Option (List Nat) × List (List Nat) :=
  if count ≤ data.length then (some data, ch)
  else
    if h : (recv (count - data.length) ch).1.length = 0 then
      (none, (recv (count - data.length) ch).2)
    else
      recv_exact_go (recv (count - data.length) ch).2
        (data ++ (recv (count - data.length) ch).1) count
termination_by count - data.length
decreasing_by
  rename_i hcount
  have h2 : (recv (count - data.length) ch).1.length ≤ count - data.length :=
    recv_length_le _ _
  simp only [List.length_append]
  omega

/-- `UsbServer._recv_exact` entry point (empty accumulator). -/
def recv_exact (count : Nat) (ch : List (List Nat)) :
    Option (List Nat) × List (List Nat) :=
  recv_exact_go ch [] count

/-- `UsbServer._receive_packet_data` (forward mode): `_recv_exact(10)` for
the header, then `_recv_exact(payload_length + 4)` for the rest. -/
def receive_packet_data (ch : List (List Nat)) :
    Option (List Nat) × List (List Nat) :=
  match (recv_exact 10 ch).1 with
  | none => (none, (recv_exact 10 ch).2)
  | some header =>
    match (recv_exact (u32dec ((header.drop 6).take 4) + 4) (recv_exact 10 ch).2).1 with
    | none =>
      (none, (recv_exact (u32dec ((header.drop 6).take 4) + 4) (recv_exact 10 ch).2).2)
    | some rest =>
      (some (header ++ rest),
        (recv_exact (u32dec ((header.drop 6).take 4) + 4) (recv_exact 10 ch).2).2)

/-! ## Connection-mode acquisition (`server.py`, `UsbServer._start_adb_mode`,
`_start_forward_mode`, `_connect_via_adb_forward`,
`_start_tcp_server_with_adb_reverse`, `_start_usb_mode`)

The transport provisioner (ADB device checks, tunnel setup, socket binds,
outward connect attempts, pyusb availability) is abstracted as a record of
outcomes; the acquisition control flow is translated from the source. -/

/-- Which state a mode-start routine ends in. -/
inductive ModeResult where
  /-- `_start_simulation_mode` was entered (TCP listener on all interfaces). -/
  | simulate
  /-- The ADB-reverse TCP accept loop was entered. -/
  | reverseListening
  /-- Forward mode connected outward to the phone's listener. -/
  | forwardConnected
  /-- USB mode entered its device-poll loop. -/
  | usbPolling
  /-- The routine returned without acquiring any transport. -/
  | noTransport
deriving DecidableEq

/-- Outcomes of the external transport-provisioning calls. -/
structure Provisioner where
  /-- `check_adb_device_ready` succeeds. -/
  adbDeviceReady : Bool
  /-- `setup_forward_for_server` succeeds. -/
  forwardSetupOk : Bool
  /-- whether outward connect attempt `i` succeeds. -/
  connectOk : Nat → Bool
  /-- binding the local TCP server socket on port 5555 succeeds. -/
  bindOk : Bool
  /-- `import usb.core` succeeds. -/
  pyusbOk : Bool
  /-- `usb.core.find()` finds a libusb backend. -/
  usbBackendOk : Bool

/-- `UsbServer._connect_via_adb_forward`: failed tunnel setup returns; ten
connect attempts (`max_retries = 10`), the first success proceeding, all
failing returning after troubleshooting output. -/
def connect_via_adb_forward (p : Provisioner) : ModeResult :=
  if !p.forwardSetupOk then ModeResult.noTransport
  else if (List.range 10).any p.connectOk then ModeResult.forwardConnected
  else ModeResult.noTransport

/-- `UsbServer._start_forward_mode`: a failed device check falls back to
simulation mode; otherwise `_connect_via_adb_forward` runs. -/
def start_forward_mode (p : Provisioner) : ModeResult :=
  if !p.adbDeviceReady then ModeResult.simulate
  else connect_via_adb_forward p

/-- `UsbServer._start_tcp_server_with_adb_reverse`: a failed bind prints the
port-conflict guide and returns. -/
def start_tcp_server_with_adb_reverse (p : Provisioner) : ModeResult :=
  if !p.bindOk then ModeResult.noTransport
  else ModeResult.reverseListening

/-- `UsbServer._start_adb_mode`: a failed device check falls back to
simulation mode; otherwise the reverse-tunnel TCP server starts. -/
def start_adb_mode (p : Provisioner) : ModeResult :=
  if !p.adbDeviceReady then ModeResult.simulate
  else start_tcp_server_with_adb_reverse p

/-- `UsbServer._start_usb_mode`: a missing pyusb or libusb backend falls back
to simulation mode; otherwise the device-poll loop is entered. -/
def start_usb_mode (p : Provisioner) : ModeResult :=
  if !p.pyusbOk then ModeResult.simulate
  else if !p.usbBackendOk then ModeResult.simulate
  else ModeResult.usbPolling

/-! ## Properties of the READ_FILE chunk loop -/

theorem read_chunks_zero (file : List Nat) (off : Nat) : read_chunks file off 0 = [] := by
  rw [read_chunks]
  simp

theorem read_chunks_last (file : List Nat) (off rem : Nat)
    (h0 : rem ≠ 0) (hle : rem ≤ 32768) :
    read_chunks file off rem
      = [⟨RESPONSE_FILE_CHUNK, FLAG_FINAL, (file.drop off).take rem⟩] := by
  rw [read_chunks]
  have hcs : CHUNK_SIZE = 32768 := rfl
  have hmin : min CHUNK_SIZE rem = rem := by omega
  rw [if_neg h0]
  simp only [hmin, read_file_chunk]
  rw [if_pos (le_refl rem)]
  simp only [Nat.sub_self, read_chunks_zero]

theorem read_chunks_cont (file : List Nat) (off rem : Nat) (h : 32768 < rem) :
    read_chunks file off rem
      = ⟨RESPONSE_FILE_CHUNK, FLAG_CONTINUATION, (file.drop off).take 32768⟩
          :: read_chunks file (off + 32768) (rem - 32768) := by
  rw [read_chunks]
  have hcs : CHUNK_SIZE = 32768 := rfl
  have hmin : min CHUNK_SIZE rem = 32768 := by omega
  rw [if_neg (by omega)]
  simp only [hmin, read_file_chunk]
  rw [if_neg (by omega)]

/-- The chunk loop emits `⌈rem / 32768⌉` chunks. -/
theorem read_chunks_length (file : List Nat) :
    ∀ rem off, (read_chunks file off rem).length = (rem + 32767) / 32768 := by
  intro rem
  induction rem using Nat.strong_induction_on with
  | _ rem ih =>
    intro off
    rcases Nat.eq_zero_or_pos rem with h0 | h0
    · rw [h0, read_chunks_zero]
      rfl
    · rcases Nat.lt_or_ge 32768 rem with hlt | hle
      · rw [read_chunks_cont file off rem hlt, List.length_cons,
          ih (rem - 32768) (by omega) (off + 32768)]
        omega
      · rw [read_chunks_last file off rem (by omega) hle, List.length_cons,
          List.length_nil]
        omega

/-- The chunk payloads concatenate to the requested byte range. -/
theorem read_chunks_flatten (file : List Nat) :
    ∀ rem off, ((read_chunks file off rem).map Packet.payload).flatten
      = (file.drop off).take rem := by
  intro rem
  induction rem using Nat.strong_induction_on with
  | _ rem ih =>
    intro off
    rcases Nat.eq_zero_or_pos rem with h0 | h0
    · rw [h0, read_chunks_zero, List.map_nil, List.flatten_nil, List.take_zero]
    · rcases Nat.lt_or_ge 32768 rem with hlt | hle
      · rw [read_chunks_cont file off rem hlt, List.map_cons, List.flatten_cons,
          ih (rem - 32768) (by omega) (off + 32768)]
        conv_rhs => rw [show rem = 32768 + (rem - 32768) from by omega, List.take_add]
        rw [show file.drop (off + 32768) = (file.drop off).drop 32768 from by
          rw [List.drop_drop, Nat.add_comm]]
      · rw [read_chunks_last file off rem (by omega) hle, List.map_cons, List.map_nil,
          List.flatten_cons, List.flatten_nil, List.append_nil]

/-- Every emitted chunk is a `RESPONSE_FILE_CHUNK`. -/
theorem read_chunks_commands (file : List Nat) :
    ∀ rem off, (read_chunks file off rem).map Packet.command
      = List.replicate ((rem + 32767) / 32768) RESPONSE_FILE_CHUNK := by
  intro rem
  induction rem using Nat.strong_induction_on with
  | _ rem ih =>
    intro off
    rcases Nat.eq_zero_or_pos rem with h0 | h0
    · rw [h0, read_chunks_zero, List.map_nil,
        show ((0 : Nat) + 32767) / 32768 = 0 from rfl, List.replicate_zero]
    · rcases Nat.lt_or_ge 32768 rem with hlt | hle
      · rw [read_chunks_cont file off rem hlt, List.map_cons,
          ih (rem - 32768) (by omega) (off + 32768),
          show (rem + 32767) / 32768 = ((rem - 32768) + 32767) / 32768 + 1 from by omega,
          List.replicate_succ]
      · rw [read_chunks_last file off rem (by omega) hle, List.map_cons, List.map_nil,
          show (rem + 32767) / 32768 = 1 from by omega]
        rfl

/-- The chunk flags are `CONTINUATION` throughout except a trailing `FINAL`. -/
theorem read_chunks_flags (file : List Nat) :
    ∀ rem off, rem ≠ 0 → (read_chunks file off rem).map Packet.flags
      = List.replicate ((rem + 32767) / 32768 - 1) FLAG_CONTINUATION ++ [FLAG_FINAL] := by
  intro rem
  induction rem using Nat.strong_induction_on with
  | _ rem ih =>
    intro off h0
    rcases Nat.lt_or_ge 32768 rem with hlt | hle
    · rw [read_chunks_cont file off rem hlt, List.map_cons,
        ih (rem - 32768) (by omega) (off + 32768) (by omega),
        show (rem + 32767) / 32768 - 1 = (((rem - 32768) + 32767) / 32768 - 1) + 1 from by
          omega,
        List.replicate_succ, List.cons_append]
    · rw [read_chunks_last file off rem h0 hle, List.map_cons, List.map_nil,
        show (rem + 32767) / 32768 - 1 = 0 from by omega,
        List.replicate_zero, List.nil_append]

/-- `_handle_read_file` at offset `0` with the length equal to the file size. -/
theorem handle_read_file_whole (file : List Nat) :
    handle_read_file file 0 (file.length : Int)
      = (read_chunks file 0 file.length, ⟨RESPONSE_END, 0, []⟩) := by
  unfold handle_read_file
  dsimp only
  rw [ite_self]
  have harg : (min (file.length : Int) ((file.length : Int) - ((0 : Nat) : Int))).toNat
      = file.length := by omega
  rw [harg]

/-! ## Properties of the WRITE_FILE receive loop -/

/-- The write events from `base` onwards sit at consecutive running offsets,
and each `create` flag is exactly "the running offset is zero". -/
def offsets_from : Nat → List WriteEvent → Prop
  | _, [] => True
  | base, ev :: rest =>
    ev.offset = base ∧ ev.create = (ev.offset == 0)
      ∧ offsets_from (base + ev.data.length) rest

theorem write_loop_offsets_from : ∀ datas received total_size,
    offsets_from received (write_loop datas received total_size).1 := by
  intro datas
  induction datas with
  | nil =>
    intro received total_size
    unfold write_loop
    split
    · exact trivial
    · exact trivial
  | cons d rest ihd =>
    intro received total_size
    unfold write_loop
    split
    · cases d with
      | none => exact trivial
      | some bytes =>
        cases hfb : Packet.from_bytes bytes with
        | none =>
          simp only [hfb]
          exact trivial
        | some pkt =>
          simp only [hfb]
          split
          · exact ⟨rfl, rfl, trivial⟩
          · exact ⟨rfl, rfl, ihd (received + pkt.payload.length) total_size⟩
    · exact trivial

/-- From `offsets_from`, each event's offset is the base plus the total
length of the events before it, and its create flag tracks offset zero. -/
theorem offsets_from_get : ∀ (evs : List WriteEvent) (base i : Nat) (hi : i < evs.length),
    offsets_from base evs →
    (evs.get ⟨i, hi⟩).offset
        = base + (((evs.take i).map (fun e => e.data.length)).sum)
      ∧ (evs.get ⟨i, hi⟩).create = ((evs.get ⟨i, hi⟩).offset == 0) := by
  intro evs
  induction evs with
  | nil =>
    intro base i hi
    exact absurd hi (by simp)
  | cons ev rest ihe =>
    intro base i hi hofs
    obtain ⟨h1, h2, h3⟩ := hofs
    cases i with
    | zero =>
      refine ⟨?_, h2⟩
      simpa using h1
    | succ j =>
      have hj : j < rest.length := by simpa using hi
      obtain ⟨ho, hc⟩ := ihe (base + ev.data.length) j hj h3
      refine ⟨?_, hc⟩
      simp only [List.get_cons_succ, List.take_succ_cons, List.map_cons, List.sum_cons]
      rw [ho]
      omega

/-- Once `total_size` bytes have been received the loop stops with
`RESPONSE_OK` and performs no further write. -/
theorem write_loop_done (datas : List (Option (List Nat))) (received total_size : Nat)
    (h : total_size ≤ received) :
    write_loop datas received total_size = ([], ⟨RESPONSE_OK, 0, []⟩) := by
  unfold write_loop
  split
  · omega
  · rfl

/-- A decoded chunk carrying the `FINAL` flag ends the loop immediately:
its payload is written at the running offset and `RESPONSE_OK` is returned,
regardless of how many bytes are still missing. -/
theorem write_loop_final (d : List Nat) (rest : List (Option (List Nat)))
    (pkt : Packet) (received total_size : Nat)
    (hlt : received < total_size)
    (hfb : Packet.from_bytes d = some pkt)
    (hfl : pkt.flags &&& FLAG_FINAL ≠ 0) :
    write_loop (some d :: rest) received total_size
      = ([⟨received, pkt.payload, received == 0⟩], ⟨RESPONSE_OK, 0, []⟩) := by
  unfold write_loop
  rw [if_pos hlt]
  simp only [hfb]
  rw [if_pos hfl]

/-! ## Properties of the streaming receive procedures -/

theorem recv_loop_zero (ch : List (List Nat)) (acc : List Nat) :
    recv_loop ch acc 0 = (some acc, ch) := by
  rw [recv_loop]
  rw [if_pos rfl]

theorem recv_loop_step (ch ch2 : List (List Nat)) (acc chunk : List Nat) (remaining : Nat)
    (h0 : remaining ≠ 0) (hrecv : recv (min remaining 4096) ch = (chunk, ch2))
    (hne : chunk.length ≠ 0) :
    recv_loop ch acc remaining = recv_loop ch2 (acc ++ chunk) (remaining - chunk.length) := by
  rw [recv_loop, if_neg h0, hrecv]
  rw [dif_neg hne]

/-- Over a channel whose pending arrivals are all nonempty (the peer has not
closed) and hold at least `remaining` bytes, the loop collects exactly the
next `remaining` bytes, in order, regardless of how they are segmented. -/
theorem recv_loop_complete : ∀ (remaining : Nat) (ch : List (List Nat)) (acc : List Nat),
    (∀ seg ∈ ch, seg ≠ []) → remaining ≤ ch.flatten.length →
    (recv_loop ch acc remaining).1 = some (acc ++ ch.flatten.take remaining) := by
  intro remaining
  induction remaining using Nat.strong_induction_on with
  | _ remaining ih =>
    intro ch acc hsegs hlen
    rcases Nat.eq_zero_or_pos remaining with h0 | h0
    · rw [h0, recv_loop_zero, List.take_zero, List.append_nil]
    · cases ch with
      | nil =>
        exfalso
        simp only [List.flatten_nil, List.length_nil] at hlen
        omega
      | cons seg rest =>
        have hseg : seg ≠ [] := hsegs seg (by simp)
        have hsegpos : 0 < seg.length := List.length_pos.mpr hseg
        have hflen : (seg :: rest).flatten.length = seg.length + rest.flatten.length := by
          rw [List.flatten_cons, List.length_append]
        have hlen' : remaining ≤ seg.length + rest.flatten.length := by omega
        rcases le_or_lt seg.length (min remaining 4096) with hA | hB
        · -- the whole front segment is consumed
          have hrecv : recv (min remaining 4096) (seg :: rest) = (seg, rest) := by
            simp only [recv]
            rw [if_pos hA]
          have hslen : seg.length ≤ remaining := by omega
          rw [recv_loop_step (seg :: rest) rest acc seg remaining (by omega) hrecv
            (by omega)]
          rw [ih (remaining - seg.length) (by omega) rest (acc ++ seg)
              (fun s hs => hsegs s (by simp [hs])) (by omega)]
          conv_rhs => rw [List.flatten_cons]
          conv_rhs => rw [show remaining = seg.length + (remaining - seg.length) from by
            omega]
          conv_rhs => rw [List.take_add, take_length_append, drop_length_append]
          rw [List.append_assoc]
        · -- the front segment is consumed only partially
          have hble : min remaining 4096 ≤ seg.length := by omega
          have hrecv : recv (min remaining 4096) (seg :: rest)
              = (seg.take (min remaining 4096), seg.drop (min remaining 4096) :: rest) := by
            simp only [recv]
            rw [if_neg (by omega)]
          have htklen : (seg.take (min remaining 4096)).length = min remaining 4096 := by
            rw [List.length_take]
            omega
          have hdrop_ne : seg.drop (min remaining 4096) ≠ [] := by
            intro hcon
            have hc := congrArg List.length hcon
            rw [List.length_drop, List.length_nil] at hc
            omega
          rw [recv_loop_step (seg :: rest) (seg.drop (min remaining 4096) :: rest) acc
            (seg.take (min remaining 4096)) remaining (by omega) hrecv (by omega)]
          rw [htklen]
          rw [ih (remaining - min remaining 4096) (by omega)
              (seg.drop (min remaining 4096) :: rest)
              (acc ++ seg.take (min remaining 4096))
              (by
                intro s hs
                rcases List.mem_cons.mp hs with h | h
                · rw [h]
                  exact hdrop_ne
                · exact hsegs s (by simp [h]))
              (by
                have hd : (seg.drop (min remaining 4096) :: rest).flatten.length
                    = (seg.length - min remaining 4096) + rest.flatten.length := by
                  rw [List.flatten_cons, List.length_append, List.length_drop]
                omega)]
          conv_lhs => rw [List.flatten_cons]
          conv_rhs => rw [List.flatten_cons]
          conv_rhs => rw [show remaining
            = min remaining 4096 + (remaining - min remaining 4096) from by omega]
          conv_rhs => rw [List.take_add, List.take_append_of_le_length hble,
            List.drop_append_of_le_length hble]
          rw [List.append_assoc]

/-- With a complete 10-byte header in hand, `_receive_data` proceeds to the
byte-exact loop for `payload_length + 4` bytes. -/
theorem receive_data_eq (ch ch2 : List (List Nat)) (header : List Nat)
    (hrecv : recv 10 ch = (header, ch2)) (h10 : header.length = 10) :
    receive_data ch = recv_loop ch2 header (u32dec ((header.drop 6).take 4) + 4) := by
  unfold receive_data
  rw [hrecv]
  dsimp only
  rw [if_neg (by omega), if_neg (by omega)]

/-- `_receive_data` discards a short (1–9 byte) header read and returns no
packet, even though the channel is still open and holds further data. -/
theorem receive_data_partial_header (seg : List Nat) (rest : List (List Nat))
    (hne : seg ≠ []) (hlt : seg.length < 10) :
    receive_data (seg :: rest) = (none, rest) := by
  have hpos : 0 < seg.length := List.length_pos.mpr hne
  have hrecv : recv 10 (seg :: rest) = (seg, rest) := by
    simp only [recv]
    rw [if_pos (by omega)]
  unfold receive_data
  rw [hrecv]
  dsimp only
  rw [if_neg (by omega), if_pos hlt]

/-- When the first pending arrival holds a full header and the open channel
holds the whole frame, `_receive_data` returns the frame's
`14 + payload_length` bytes exactly, however the bytes are segmented. -/
theorem receive_data_complete (seg : List Nat) (rest : List (List Nat))
    (h10 : 10 ≤ seg.length) (hsegs : ∀ s ∈ seg :: rest, s ≠ [])
    (hlen : 14 + u32dec ((((seg :: rest).flatten.take 10).drop 6).take 4)
      ≤ (seg :: rest).flatten.length) :
    (receive_data (seg :: rest)).1
      = some ((seg :: rest).flatten.take
          (14 + u32dec ((((seg :: rest).flatten.take 10).drop 6).take 4))) := by
  have hflat : (seg :: rest).flatten = seg ++ rest.flatten := List.flatten_cons ..
  have hflen : (seg :: rest).flatten.length = seg.length + rest.flatten.length := by
    rw [hflat, List.length_append]
  rcases le_or_lt seg.length 10 with hA | hB
  · -- the header is exactly the first segment
    have hseg10 : seg.length = 10 := by omega
    have htk : (seg :: rest).flatten.take 10 = seg := by
      rw [hflat, show (10 : Nat) = seg.length from by omega, take_length_append]
    have hdp : (seg :: rest).flatten.drop 10 = rest.flatten := by
      rw [hflat, show (10 : Nat) = seg.length from by omega, drop_length_append]
    have hpl : u32dec ((((seg :: rest).flatten.take 10).drop 6).take 4)
        = u32dec ((seg.drop 6).take 4) := by
      rw [htk]
    have hrecv : recv 10 (seg :: rest) = (seg, rest) := by
      simp only [recv]
      rw [if_pos hA]
    rw [receive_data_eq (seg :: rest) rest seg hrecv hseg10]
    rw [recv_loop_complete (u32dec ((seg.drop 6).take 4) + 4) rest seg
        (fun s hs => hsegs s (by simp [hs])) (by omega)]
    conv_rhs => rw [show 14 + u32dec ((((seg :: rest).flatten.take 10).drop 6).take 4)
      = 10 + (u32dec ((((seg :: rest).flatten.take 10).drop 6).take 4) + 4) from by omega]
    conv_rhs => rw [List.take_add]
    conv_rhs => rw [htk, hdp]
  · -- the header is a strict prefix of the first segment
    have h10' : (10 : Nat) ≤ seg.length := by omega
    have htk : (seg :: rest).flatten.take 10 = seg.take 10 := by
      rw [hflat, List.take_append_of_le_length h10']
    have hdp : (seg :: rest).flatten.drop 10 = seg.drop 10 ++ rest.flatten := by
      rw [hflat, List.drop_append_of_le_length h10']
    have htklen : (seg.take 10).length = 10 := by
      rw [List.length_take]
      omega
    have hdropne : seg.drop 10 ≠ [] := by
      intro hcon
      have hc := congrArg List.length hcon
      rw [List.length_drop, List.length_nil] at hc
      omega
    have hpl : u32dec ((((seg :: rest).flatten.take 10).drop 6).take 4)
        = u32dec (((seg.take 10).drop 6).take 4) := by
      rw [htk]
    have hflat2 : (seg.drop 10 :: rest).flatten = (seg :: rest).flatten.drop 10 := by
      rw [List.flatten_cons, hdp]
    have hdlen : (seg.drop 10 :: rest).flatten.length
        = (seg.length - 10) + rest.flatten.length := by
      rw [List.flatten_cons, List.length_append, List.length_drop]
    have hrecv : recv 10 (seg :: rest) = (seg.take 10, seg.drop 10 :: rest) := by
      simp only [recv]
      rw [if_neg (by omega)]
    rw [receive_data_eq (seg :: rest) (seg.drop 10 :: rest) (seg.take 10) hrecv htklen]
    rw [recv_loop_complete (u32dec (((seg.take 10).drop 6).take 4) + 4)
        (seg.drop 10 :: rest) (seg.take 10)
        (by
          intro s hs
          rcases List.mem_cons.mp hs with h | h
          · rw [h]
            exact hdropne
          · exact hsegs s (by simp [h]))
        (by omega)]
    conv_rhs => rw [show 14 + u32dec ((((seg :: rest).flatten.take 10).drop 6).take 4)
      = 10 + (u32dec ((((seg :: rest).flatten.take 10).drop 6).take 4) + 4) from by omega]
    conv_rhs => rw [List.take_add]
    conv_rhs => rw [htk, ← hflat2]

theorem recv_exact_go_done (ch : List (List Nat)) (data : List Nat) (count : Nat)
    (h : count ≤ data.length) : recv_exact_go ch data count = (some data, ch) := by
  rw [recv_exact_go, if_pos h]

theorem recv_exact_go_step (ch ch2 : List (List Nat)) (data chunk : List Nat) (count : Nat)
    (h : ¬count ≤ data.length)
    (hrecv : recv (count - data.length) ch = (chunk, ch2)) (hne : chunk.length ≠ 0) :
    recv_exact_go ch data count = recv_exact_go ch2 (data ++ chunk) count := by
  rw [recv_exact_go, if_neg h, hrecv]
  rw [dif_neg hne]

/-- `_recv_exact` collects exactly the requested byte count over an open
channel holding enough bytes, however they are segmented. -/
theorem recv_exact_go_complete : ∀ (k : Nat) (ch : List (List Nat)) (data : List Nat)
    (count : Nat), k = count - data.length →
    (∀ seg ∈ ch, seg ≠ []) → count - data.length ≤ ch.flatten.length →
    (recv_exact_go ch data count).1
      = some (data ++ ch.flatten.take (count - data.length)) := by
  intro k
  induction k using Nat.strong_induction_on with
  | _ k ih =>
    intro ch data count hk hsegs hlen
    rcases Nat.le_or_le count data.length with hdone | hmore
    · rw [recv_exact_go_done ch data count hdone,
        show count - data.length = 0 from by omega, List.take_zero, List.append_nil]
    · rcases Nat.eq_or_lt_of_le hmore with heq | hlt
      · rw [recv_exact_go_done ch data count (by omega),
          show count - data.length = 0 from by omega, List.take_zero, List.append_nil]
      · cases ch with
        | nil =>
          exfalso
          simp only [List.flatten_nil, List.length_nil] at hlen
          omega
        | cons seg rest =>
          have hseg : seg ≠ [] := hsegs seg (by simp)
          have hsegpos : 0 < seg.length := List.length_pos.mpr hseg
          have hflen : (seg :: rest).flatten.length
              = seg.length + rest.flatten.length := by
            rw [List.flatten_cons, List.length_append]
          rcases le_or_lt seg.length (count - data.length) with hA | hB
          · have hrecv : recv (count - data.length) (seg :: rest) = (seg, rest) := by
              simp only [recv]
              rw [if_pos hA]
            rw [recv_exact_go_step (seg :: rest) rest data seg count (by omega) hrecv
              (by omega)]
            rw [ih (count - (data ++ seg).length)
                (by rw [List.length_append]; omega)
                rest (data ++ seg) count rfl
                (fun s hs => hsegs s (by simp [hs]))
                (by rw [List.length_append]; omega)]
            rw [List.length_append,
              show count - (data.length + seg.length)
                = (count - data.length) - seg.length from by omega]
            conv_rhs => rw [List.flatten_cons]
            conv_rhs => rw [show count - data.length
              = seg.length + ((count - data.length) - seg.length) from by omega]
            conv_rhs => rw [List.take_add, take_length_append, drop_length_append]
            rw [List.append_assoc]
          · have hble : count - data.length ≤ seg.length := by omega
            have hrecv : recv (count - data.length) (seg :: rest)
                = (seg.take (count - data.length),
                   seg.drop (count - data.length) :: rest) := by
              simp only [recv]
              rw [if_neg (by omega)]
            have htklen : (seg.take (count - data.length)).length
                = count - data.length := by
              rw [List.length_take]
              omega
            rw [recv_exact_go_step (seg :: rest) (seg.drop (count - data.length) :: rest)
              data (seg.take (count - data.length)) count (by omega) hrecv
              (by rw [htklen]; omega)]
            rw [recv_exact_go_done _ _ _
              (by rw [List.length_append, htklen]; omega)]
            rw [show count - data.length = (data ++ seg.take (count - data.length)).length
                - data.length from by rw [List.length_append, htklen]; omega]
            rw [List.length_append, htklen,
              show data.length + (count - data.length) - data.length
                = count - data.length from by omega]
            conv_rhs => rw [List.flatten_cons]
            conv_rhs => rw [List.take_append_of_le_length hble]

theorem recv_exact_complete (count : Nat) (ch : List (List Nat))
    (hsegs : ∀ seg ∈ ch, seg ≠ []) (hlen : count ≤ ch.flatten.length) :
    (recv_exact count ch).1 = some (ch.flatten.take count) := by
  unfold recv_exact
  rw [recv_exact_go_complete (count - ([] : List Nat).length) ch [] count rfl hsegs
    (by simpa using hlen)]
  rw [List.nil_append, List.length_nil, Nat.sub_zero]

/-! ## Properties of the GET_FILE_INFO payload (truncated file-item encoding) -/

theorem take_append_length {α : Type} (l t : List α) (k : Nat) :
    (l ++ t).take (l.length + k) = l ++ t.take k := by
  rw [List.take_append_eq_append_take,
    List.take_of_length_le (by omega),
    show l.length + k - l.length = k from by omega]

theorem drop_append_length {α : Type} (l t : List α) (k : Nat) :
    (l ++ t).drop (l.length + k) = t.drop k := by
  rw [List.drop_append_eq_append_drop,
    List.drop_eq_nil_of_le (by omega), List.nil_append,
    show l.length + k - l.length = k from by omega]

theorem take_four_u32le (x : Nat) (t : List Nat) : (u32le x ++ t).take 4 = u32le x := rfl

/-- A well-formed file-item encoding, as read by a file-list consumer: a
`u32` name length, the name, a `u32` path length, the path, one flag byte
and two `u64` fields — so the total length must be `25 + name_len + path_len`
for the lengths announced in the two prefixes. -/
def item_well_formed (bs : List Nat) : Bool :=
  if bs.length < 8 then false
  else
    if bs.length < 8 + u32dec (bs.take 4) then false
    else
      bs.length == 25 + u32dec (bs.take 4)
        + u32dec ((bs.drop (4 + u32dec (bs.take 4))).take 4)

theorem serialize_file_item_length (it : FileItem) :
    (serialize_file_item it).length = 25 + it.name.length + it.path.length := by
  simp only [serialize_file_item, List.length_append, length_u32le, length_u64le,
    List.length_cons, List.length_nil]
  omega

/-- The item encoding written as a right-nested append chain. -/
theorem serialize_file_item_assoc (it : FileItem) :
    serialize_file_item it
      = u32le it.name.length ++ (it.name ++ (u32le it.path.length ++ (it.path
          ++ ([if it.isDir then 1 else 0] ++ (u64le it.size ++ u64le it.lastModified))))) := by
  simp only [serialize_file_item, List.append_assoc]

theorem serialize_file_item_take_four (it : FileItem) :
    (serialize_file_item it).take 4 = u32le it.name.length := by
  rw [serialize_file_item_assoc, take_four_u32le]

theorem serialize_file_item_drop_to_path_len (it : FileItem) :
    ((serialize_file_item it).drop (4 + it.name.length)).take 4
      = u32le it.path.length := by
  rw [serialize_file_item_assoc,
    show 4 + it.name.length = (u32le it.name.length).length + it.name.length from by
      rw [length_u32le],
    drop_append_length, drop_length_append, take_four_u32le]

/-- Every item produced by `serialize_file_item` is well-formed (for byte
lengths representable as `u32`, which `struct.pack` enforces). -/
theorem serialize_file_item_well_formed (it : FileItem)
    (hn : it.name.length < 4294967296) (hp : it.path.length < 4294967296) :
    item_well_formed (serialize_file_item it) = true := by
  unfold item_well_formed
  rw [serialize_file_item_take_four, u32dec_u32le _ hn,
    serialize_file_item_length]
  rw [if_neg (by omega), if_neg (by omega)]
  rw [serialize_file_item_drop_to_path_len, u32dec_u32le _ hp]
  exact beq_self_eq_true _

/-- The truncated encoding: all of the item except the last four bytes, i.e.
the upper half of the `u64` `last_modified` field is cut off. -/
theorem serialize_file_item_truncate (it : FileItem) :
    (serialize_file_item it).take ((serialize_file_item it).length - 4)
        = (u32le it.name.length ++ it.name ++ u32le it.path.length ++ it.path
            ++ [if it.isDir then 1 else 0] ++ u64le it.size)
          ++ (u64le it.lastModified).take 4
      ∧ (serialize_file_item it).drop ((serialize_file_item it).length - 4)
        = (u64le it.lastModified).drop 4 := by
  have hq : serialize_file_item it
      = (u32le it.name.length ++ it.name ++ u32le it.path.length ++ it.path
          ++ [if it.isDir then 1 else 0] ++ u64le it.size) ++ u64le it.lastModified := by
    simp only [serialize_file_item, List.append_assoc]
  have hqlen : (u32le it.name.length ++ it.name ++ u32le it.path.length ++ it.path
      ++ [if it.isDir then 1 else 0] ++ u64le it.size).length
      = 17 + it.name.length + it.path.length := by
    simp only [List.length_append, length_u32le, length_u64le, List.length_cons,
      List.length_nil]
    omega
  have hlen4 : (serialize_file_item it).length - 4
      = (u32le it.name.length ++ it.name ++ u32le it.path.length ++ it.path
          ++ [if it.isDir then 1 else 0] ++ u64le it.size).length + 4 := by
    rw [serialize_file_item_length, hqlen]
    omega
  constructor
  · rw [hlen4]
    conv_lhs => rw [hq]
    rw [take_append_length]
  · rw [hlen4]
    conv_lhs => rw [hq]
    rw [drop_append_length]

/-- The truncated item fails the well-formedness check: its announced name
and path lengths still parse, but four bytes are missing from the total. -/
theorem serialize_file_item_truncated_ill_formed (it : FileItem)
    (hn : it.name.length < 4294967296) (hp : it.path.length < 4294967296) :
    item_well_formed
      ((serialize_file_item it).take ((serialize_file_item it).length - 4)) = false := by
  obtain ⟨htk, _⟩ := serialize_file_item_truncate it
  rw [htk]
  have hassoc : (u32le it.name.length ++ it.name ++ u32le it.path.length ++ it.path
        ++ [if it.isDir then 1 else 0] ++ u64le it.size) ++ (u64le it.lastModified).take 4
      = u32le it.name.length ++ (it.name ++ (u32le it.path.length ++ (it.path
          ++ ([if it.isDir then 1 else 0] ++ (u64le it.size
            ++ (u64le it.lastModified).take 4))))) := by
    simp only [List.append_assoc]
  have hlen : (u32le it.name.length ++ (it.name ++ (u32le it.path.length ++ (it.path
      ++ ([if it.isDir then 1 else 0] ++ (u64le it.size
        ++ (u64le it.lastModified).take 4)))))).length
      = 21 + it.name.length + it.path.length := by
    simp only [List.length_append, length_u32le, length_u64le, List.length_cons,
      List.length_nil, List.length_take]
    omega
  rw [hassoc]
  unfold item_well_formed
  rw [take_four_u32le, u32dec_u32le _ hn, hlen]
  rw [if_neg (by omega), if_neg (by omega)]
  rw [show 4 + it.name.length = (u32le it.name.length).length + it.name.length from by
      rw [length_u32le],
    drop_append_length, drop_length_append, take_four_u32le, u32dec_u32le _ hp]
  rw [beq_eq_false_iff_ne]
  omega

/-- `serialize_file_list` of one item is the `u32` count `1` then the item. -/
theorem serialize_file_list_singleton (it : FileItem) :
    serialize_file_list [it] = u32le 1 ++ serialize_file_item it := by
  simp only [serialize_file_list, List.map_cons, List.map_nil, List.flatten_cons,
    List.flatten_nil, List.append_nil, List.length_cons, List.length_nil]

theorem except_bind_ok {e a b : Type} (x : a) (f : a → Except e b) :
    Bind.bind (Except.ok x) f = f x := rfl

/-- `_handle_get_file_info` with a valid path and a successful stat returns
`RESPONSE_DATA` whose payload is the one-item list with the last four bytes
sliced off. -/
theorem handle_get_file_info_eq (fs : FileHandler) (p : Packet) (pth : List Nat)
    (info : FileItem)
    (hpath : deserialize_path p.payload = Except.ok pth)
    (hinfo : fs.getFileInfo pth = Except.ok info) :
    handle_get_file_info fs p
      = Except.ok ⟨RESPONSE_DATA, 0,
          (serialize_file_list [info]).take ((serialize_file_list [info]).length - 4)⟩ := by
  simp only [handle_get_file_info, hpath, hinfo, except_bind_ok]
  rfl

/-- The sliced payload splits as the count prefix plus the truncated item. -/
theorem get_file_info_payload_split (info : FileItem) :
    (serialize_file_list [info]).take ((serialize_file_list [info]).length - 4)
      = u32le 1 ++ (serialize_file_item info).take ((serialize_file_item info).length - 4) := by
  rw [serialize_file_list_singleton]
  have h1 : (u32le 1 ++ serialize_file_item info).length
      = 4 + (serialize_file_item info).length := by
    rw [List.length_append, length_u32le]
  have h2 : (u32le 1 ++ serialize_file_item info).length - 4
      = (u32le 1).length + ((serialize_file_item info).length - 4) := by
    rw [h1, length_u32le, serialize_file_item_length]
    omega
  rw [h2, take_append_length]

/-! ## Properties of the search result cap -/

theorem search_loop_le : ∀ (cands : List SearchCand) (acc : List FileItem),
    acc.length < 100 → (search_loop cands acc).length ≤ 100 := by
  intro cands
  induction cands with
  | nil =>
    intro acc h
    unfold search_loop
    omega
  | cons c rest ihc =>
    intro acc h
    obtain ⟨m, st⟩ := c
    unfold search_loop
    cases m with
    | false =>
      rw [if_neg (by simp)]
      exact ihc acc h
    | true =>
      rw [if_pos rfl]
      cases st with
      | none => exact ihc acc h
      | some it =>
        dsimp only
        rcases le_or_lt 100 (acc ++ [it]).length with hd | hd
        · rw [if_pos hd]
          rw [List.length_append, List.length_cons, List.length_nil]
          omega
        · rw [if_neg (by omega)]
          exact ihc (acc ++ [it]) hd

theorem search_files_le (cands : List SearchCand) :
    (search_files cands).length ≤ 100 :=
  search_loop_le cands [] (by simp)

/-- `_handle_search` with a well-formed query payload returns `RESPONSE_DATA`
carrying the serialized (capped) result list. -/
theorem handle_search_eq (fs : FileHandler) (p : Packet) (q pth : List Nat)
    (h : deserialize_search p.payload = Except.ok (q, pth)) :
    handle_search fs p
      = Except.ok ⟨RESPONSE_DATA, 0,
          serialize_file_list (search_files (fs.searchWalk q pth))⟩ := by
  simp only [handle_search, h, except_bind_ok]
  rfl

/-- The item-count prefix of a serialized file list decodes to the list
length whenever that length fits in a `u32`. -/
theorem serialize_file_list_count (l : List FileItem) (h : l.length < 4294967296) :
    u32dec ((serialize_file_list l).take 4) = l.length := by
  rw [serialize_file_list, take_four_u32le, u32dec_u32le _ h]

/-! ## Properties of the request dispatcher -/

/-- All byte values defined by the `Command` enumeration. -/
def definedCommands : List Nat :=
  [HANDSHAKE, LIST_DIR, GET_FILE_INFO, READ_FILE, WRITE_FILE, CREATE_DIR, DELETE,
   RENAME, SEARCH, GET_DRIVES, GET_STORAGE_INFO, DISCONNECT,
   RESPONSE_OK, RESPONSE_ERROR, RESPONSE_DATA, RESPONSE_FILE_CHUNK, RESPONSE_END]

/-- An unrecognized command byte falls through the whole dispatch chain to
the `UNKNOWN_COMMAND` error response. -/
theorem handle_packet_unknown (fs : FileHandler) (rfh wfh : Packet → Except PyErr Packet)
    (p : Packet) (h : p.command ∉ definedCommands) :
    handle_packet fs rfh wfh p
      = error_response EC_UNKNOWN_COMMAND (unknownCommandMsg p.command) := by
  simp only [definedCommands, HANDSHAKE, LIST_DIR, GET_FILE_INFO, READ_FILE, WRITE_FILE,
    CREATE_DIR, DELETE, RENAME, SEARCH, GET_DRIVES, GET_STORAGE_INFO, DISCONNECT,
    RESPONSE_OK, RESPONSE_ERROR, RESPONSE_DATA, RESPONSE_FILE_CHUNK, RESPONSE_END,
    List.mem_cons, List.not_mem_nil, or_false, not_or] at h
  obtain ⟨h1, h2, h3, h4, h5, h6, h7, h8, h9, h10, h11, h12, h13, h14, h15, h16, h17⟩ := h
  simp only [handle_packet, HANDSHAKE, LIST_DIR, GET_FILE_INFO, READ_FILE, WRITE_FILE,
    CREATE_DIR, DELETE, RENAME, SEARCH, GET_DRIVES, GET_STORAGE_INFO, DISCONNECT]
  rw [if_neg h1, if_neg h2, if_neg h3, if_neg h4, if_neg h5, if_neg h6, if_neg h7,
    if_neg h8, if_neg h9, if_neg h10, if_neg h11, if_neg h12]

/-- `DISCONNECT` is answered with a bare `RESPONSE_OK` (empty payload). -/
theorem handle_packet_disconnect (fs : FileHandler)
    (rfh wfh : Packet → Except PyErr Packet) (flags : Nat) (payload : List Nat) :
    handle_packet fs rfh wfh ⟨DISCONNECT, flags, payload⟩
      = ⟨RESPONSE_OK, 0, []⟩ := by
  simp [handle_packet, HANDSHAKE, LIST_DIR, GET_FILE_INFO, READ_FILE, WRITE_FILE,
    CREATE_DIR, DELETE, RENAME, SEARCH, GET_DRIVES, GET_STORAGE_INFO, DISCONNECT]

/-- A `HANDSHAKE` whose payload decodes as UTF-8 is always answered with the
fixed server identity, whatever the payload says. -/
theorem handle_packet_handshake_valid (fs : FileHandler)
    (rfh wfh : Packet → Except PyErr Packet) (flags : Nat) (payload : List Nat)
    (h : utf8Valid payload = true) :
    handle_packet fs rfh wfh ⟨HANDSHAKE, flags, payload⟩
      = ⟨RESPONSE_OK, 0, serverIdentity⟩ := by
  simp [handle_packet, handle_handshake, HANDSHAKE, h]

/-- A `HANDSHAKE` whose payload is not valid UTF-8 raises
`UnicodeDecodeError` inside the handler, which the dispatcher's generic
`except` clause turns into an `IO_ERROR` response. -/
theorem handle_packet_handshake_invalid (fs : FileHandler)
    (rfh wfh : Packet → Except PyErr Packet) (flags : Nat) (payload : List Nat)
    (h : utf8Valid payload = false) :
    handle_packet fs rfh wfh ⟨HANDSHAKE, flags, payload⟩
      = error_response EC_IO_ERROR unicodeDecodeMsg := by
  simp [handle_packet, handle_handshake, HANDSHAKE, h]

/-! ## Fixtures for witnesses and counterexamples -/

/-- A filesystem collaborator all of whose operations raise. -/
def trivFS : FileHandler where
  listDirectory := fun _ => .error (.other [])
  getFileInfo := fun _ => .error (.other [])
  createDirectory := fun _ => .error (.other [])
  delete := fun _ => .error (.other [])
  rename := fun _ _ => .error (.other [])
  searchWalk := fun _ _ => []
  getDrives := .error (.other [])
  getStorageInfo := fun _ => .error (.other [])

/-- A streaming handler stub that raises. -/
def trivH : Packet → Except PyErr Packet := fun _ => .error (.other [])

/-- A concrete stat result with a `last_modified` above `2^32`. -/
def item0 : FileItem := ⟨[65], [66, 67], false, 5, 4294967296⟩

/-- A filesystem whose `getFileInfo` succeeds with `item0`. -/
def infoFS : FileHandler := { trivFS with getFileInfo := fun _ => .ok item0 }

/-- A provisioner where the ADB device check and tunnel setup succeed but
every outward connect attempt fails. -/
def failingForward : Provisioner :=
  ⟨true, true, fun _ => false, true, true, true⟩

/-! ## The claims -/

/-- C1: packet encode/decode round trip — for every command byte, flags
byte, and payload of length at most 65522 bytes, decoding the bytes
produced by `Packet.to_bytes` yields exactly the original packet. -/
theorem c1_packet_round_trip (p : Packet) (hc : p.command < 256) (hf : p.flags < 256)
    (hlen : p.payload.length ≤ 65522) (hb : ∀ b ∈ p.payload, b < 256) :
    Packet.from_bytes (Packet.to_bytes p) = some p :=
  from_bytes_to_bytes p hc hf hlen hb

theorem c1_packet_round_trip_witness :
    ((1 : Nat) < 256 ∧ (0 : Nat) < 256 ∧ ([7] : List Nat).length ≤ 65522
      ∧ ∀ b ∈ ([7] : List Nat), b < 256)
    ∧ Packet.from_bytes (Packet.to_bytes ⟨1, 0, [7]⟩) = some ⟨1, 0, [7]⟩ :=
  ⟨⟨by decide, by decide, by decide, by decide⟩,
   c1_packet_round_trip ⟨1, 0, [7]⟩ (by decide) (by decide) (by decide) (by decide)⟩

/-- C2: the trailing 4 bytes of every encoded packet are the little-endian
CRC-32/ISO-HDLC of bytes `[0, 10 + payload_length)`; the CRC of the empty
byte sequence is `0`; and a fully buffered frame whose trailing 4 bytes
differ from that CRC is rejected by `Packet.from_bytes`. -/
theorem c2_checksum_crc32 :
    (∀ p : Packet, (Packet.to_bytes p).drop (10 + p.payload.length)
        = u32le (crc32 ((Packet.to_bytes p).take (10 + p.payload.length))))
    ∧ crc32 [] = 0
    ∧ (∀ m0 m1 m2 m3 cmd fl l0 l1 l2 l3 : Nat, ∀ rest : List Nat,
        rest.length = 4 + u32dec [l0, l1, l2, l3] →
        u32dec ((rest.drop (u32dec [l0, l1, l2, l3])).take 4)
          ≠ crc32 ((m0 :: m1 :: m2 :: m3 :: cmd :: fl :: l0 :: l1 :: l2 :: l3 :: rest).take
              (10 + u32dec [l0, l1, l2, l3])) →
        Packet.from_bytes
          (m0 :: m1 :: m2 :: m3 :: cmd :: fl :: l0 :: l1 :: l2 :: l3 :: rest) = none) :=
  ⟨to_bytes_checksum, crc32_nil, from_bytes_checksum_reject⟩

theorem c2_checksum_crc32_witness :
    (([0, 0, 0, 0] : List Nat).length = 4 + u32dec [0, 0, 0, 0]
      ∧ u32dec ((([0, 0, 0, 0] : List Nat).drop (u32dec [0, 0, 0, 0])).take 4)
          ≠ crc32 (([80, 67, 69, 88, 1, 0, 0, 0, 0, 0, 0, 0, 0, 0] : List Nat).take
              (10 + u32dec [0, 0, 0, 0])))
    ∧ Packet.from_bytes ([80, 67, 69, 88, 1, 0, 0, 0, 0, 0, 0, 0, 0, 0] : List Nat)
        = none :=
  ⟨⟨by decide, by decide⟩,
   c2_checksum_crc32.2.2 80 67 69 88 1 0 0 0 0 0 [0, 0, 0, 0] (by decide) (by decide)⟩

/-- C3: a whole-file READ_FILE (offset 0, length equal to the file size)
emits exactly `⌈N/32768⌉` `RESPONSE_FILE_CHUNK` packets whose payloads
concatenate to the file bytes, flagged `CONTINUATION` except the last
(`FINAL`), emits none for an empty file, and returns one `RESPONSE_END`. -/
theorem c3_read_file_chunking (file : List Nat) :
    (handle_read_file file 0 (file.length : Int)).1.length
        = (file.length + 32767) / 32768
    ∧ ((handle_read_file file 0 (file.length : Int)).1.map Packet.payload).flatten = file
    ∧ (handle_read_file file 0 (file.length : Int)).1.map Packet.command
        = List.replicate ((file.length + 32767) / 32768) RESPONSE_FILE_CHUNK
    ∧ (file = [] → (handle_read_file file 0 (file.length : Int)).1 = [])
    ∧ (file ≠ [] → (handle_read_file file 0 (file.length : Int)).1.map Packet.flags
        = List.replicate ((file.length + 32767) / 32768 - 1) FLAG_CONTINUATION
            ++ [FLAG_FINAL])
    ∧ (handle_read_file file 0 (file.length : Int)).2 = ⟨RESPONSE_END, 0, []⟩ := by
  rw [handle_read_file_whole]
  dsimp only
  refine ⟨read_chunks_length file file.length 0, ?_,
    read_chunks_commands file file.length 0, ?_, ?_, rfl⟩
  · rw [read_chunks_flatten file file.length 0, List.drop_zero, List.take_length]
  · intro h0
    rw [h0, List.length_nil]
    exact read_chunks_zero [] 0
  · intro hne
    exact read_chunks_flags file file.length 0
      (fun hc => hne (List.length_eq_zero.mp hc))

theorem c3_read_file_chunking_witness :
    (([1, 2, 3] : List Nat) ≠ [])
    ∧ (handle_read_file [1, 2, 3] 0 ((([1, 2, 3] : List Nat).length : Int))).1.map
          Packet.flags
        = List.replicate ((([1, 2, 3] : List Nat).length + 32767) / 32768 - 1)
            FLAG_CONTINUATION ++ [FLAG_FINAL] :=
  ⟨by decide, (c3_read_file_chunking [1, 2, 3]).2.2.2.2.1 (by decide)⟩

/-- C4: the WRITE_FILE chunk loop writes chunk `i` at the running offset
(the sum of the lengths of chunks `0..i-1`), the first write creates the
file, a `FINAL`-flagged chunk terminates the loop immediately with
`RESPONSE_OK` even when fewer than `total_size` bytes have arrived, and the
loop also stops once `total_size` bytes have been received. -/
theorem c4_write_file_loop :
    (∀ (datas : List (Option (List Nat))) (total_size i : Nat)
        (hi : i < (handle_write_file datas total_size).1.length),
        ((handle_write_file datas total_size).1.get ⟨i, hi⟩).offset
          = (((handle_write_file datas total_size).1.take i).map
              (fun e => e.data.length)).sum
        ∧ ((handle_write_file datas total_size).1.get ⟨i, hi⟩).create
          = (((handle_write_file datas total_size).1.get ⟨i, hi⟩).offset == 0))
    ∧ (∀ (datas : List (Option (List Nat))) (total_size : Nat)
        (h0 : 0 < (handle_write_file datas total_size).1.length),
        ((handle_write_file datas total_size).1.get ⟨0, h0⟩).create = true)
    ∧ (∀ (d : List Nat) (rest : List (Option (List Nat))) (pkt : Packet)
        (total_size : Nat), 0 < total_size →
        Packet.from_bytes d = some pkt → pkt.flags &&& FLAG_FINAL ≠ 0 →
        handle_write_file (some d :: rest) total_size
          = ([⟨0, pkt.payload, true⟩], ⟨RESPONSE_OK, 0, []⟩))
    ∧ (∀ (datas : List (Option (List Nat))) (received total_size : Nat),
        total_size ≤ received →
        write_loop datas received total_size = ([], ⟨RESPONSE_OK, 0, []⟩)) := by
  refine ⟨?_, ?_, ?_, write_loop_done⟩
  · intro datas total_size i hi
    have hofs : offsets_from 0 (handle_write_file datas total_size).1 :=
      write_loop_offsets_from datas 0 total_size
    obtain ⟨ho, hc⟩ := offsets_from_get (handle_write_file datas total_size).1 0 i hi hofs
    rw [Nat.zero_add] at ho
    exact ⟨ho, hc⟩
  · intro datas total_size h0
    have hofs : offsets_from 0 (handle_write_file datas total_size).1 :=
      write_loop_offsets_from datas 0 total_size
    obtain ⟨ho, hc⟩ := offsets_from_get (handle_write_file datas total_size).1 0 0 h0 hofs
    rw [List.take_zero, List.map_nil, List.sum_nil, Nat.add_zero] at ho
    rw [hc, ho]
    rfl
  · intro d rest pkt total_size h0 hfb hfl
    exact write_loop_final d rest pkt 0 total_size h0 hfb hfl

theorem c4_write_file_loop_witness :
    ((0 : Nat) < 5
      ∧ Packet.from_bytes (Packet.to_bytes ⟨0x83, 8, [9, 9]⟩) = some ⟨0x83, 8, [9, 9]⟩
      ∧ (Packet.flags ⟨0x83, 8, [9, 9]⟩) &&& FLAG_FINAL ≠ 0)
    ∧ handle_write_file [some (Packet.to_bytes ⟨0x83, 8, [9, 9]⟩)] 5
        = ([⟨0, [9, 9], true⟩], ⟨RESPONSE_OK, 0, []⟩) :=
  ⟨⟨by decide, by decide, by decide⟩,
   c4_write_file_loop.2.2.1 (Packet.to_bytes ⟨0x83, 8, [9, 9]⟩) [] ⟨0x83, 8, [9, 9]⟩ 5
     (by decide) (by decide) (by decide)⟩

/-- C5 counterexample: a valid frame arriving split 5 bytes / 9 bytes — the
channel is open (both pending arrivals nonempty and holding the full frame),
yet `_receive_data` discards the 5 header bytes and returns no packet, so
the receiver does not keep looping on a partial header read. -/
theorem c5_streaming_receive_counterexample :
    (Packet.to_bytes ⟨1, 0, []⟩).take 5 ≠ []
    ∧ (Packet.to_bytes ⟨1, 0, []⟩).drop 5 ≠ []
    ∧ (Packet.to_bytes ⟨1, 0, []⟩).take 5 ++ (Packet.to_bytes ⟨1, 0, []⟩).drop 5
        = Packet.to_bytes ⟨1, 0, []⟩
    ∧ receive_data [(Packet.to_bytes ⟨1, 0, []⟩).take 5,
          (Packet.to_bytes ⟨1, 0, []⟩).drop 5]
        = (none, [(Packet.to_bytes ⟨1, 0, []⟩).drop 5]) :=
  ⟨by decide, by decide, by decide,
   receive_data_partial_header ((Packet.to_bytes ⟨1, 0, []⟩).take 5)
     [(Packet.to_bytes ⟨1, 0, []⟩).drop 5] (by decide) (by decide)⟩

/-- C5 as amended: `_receive_data` issues one `recv(10)` for the header and
discards a short (1–9 byte) header read, returning no packet; when the
header arrives whole, the payload-plus-checksum read does loop until
`payload_length + 4` bytes are received, whatever the segmentation; and the
forward-mode `_recv_exact` loops to the exact byte count for any
segmentation. -/
theorem c5_streaming_receive_amended :
    (∀ (seg : List Nat) (rest : List (List Nat)), seg ≠ [] → seg.length < 10 →
        receive_data (seg :: rest) = (none, rest))
    ∧ (∀ (seg : List Nat) (rest : List (List Nat)),
        10 ≤ seg.length → (∀ s ∈ seg :: rest, s ≠ []) →
        14 + u32dec ((((seg :: rest).flatten.take 10).drop 6).take 4)
            ≤ (seg :: rest).flatten.length →
        (receive_data (seg :: rest)).1
          = some ((seg :: rest).flatten.take
              (14 + u32dec ((((seg :: rest).flatten.take 10).drop 6).take 4))))
    ∧ (∀ (count : Nat) (ch : List (List Nat)), (∀ s ∈ ch, s ≠ []) →
        count ≤ ch.flatten.length →
        (recv_exact count ch).1 = some (ch.flatten.take count)) :=
  ⟨receive_data_partial_header, receive_data_complete, recv_exact_complete⟩

theorem c5_streaming_receive_witness :
    ((10 : Nat) ≤ ((Packet.to_bytes ⟨1, 0, [171]⟩).take 12).length)
    ∧ (receive_data [(Packet.to_bytes ⟨1, 0, [171]⟩).take 12,
          (Packet.to_bytes ⟨1, 0, [171]⟩).drop 12]).1
        = some (([(Packet.to_bytes ⟨1, 0, [171]⟩).take 12,
              (Packet.to_bytes ⟨1, 0, [171]⟩).drop 12] : List (List Nat)).flatten.take
            (14 + u32dec (((([(Packet.to_bytes ⟨1, 0, [171]⟩).take 12,
                (Packet.to_bytes ⟨1, 0, [171]⟩).drop 12] : List (List Nat)).flatten.take
                  10).drop 6).take 4))) :=
  ⟨by decide,
   c5_streaming_receive_amended.2.1 ((Packet.to_bytes ⟨1, 0, [171]⟩).take 12)
     [(Packet.to_bytes ⟨1, 0, [171]⟩).drop 12] (by decide) (by decide) (by decide)⟩

/-- C6: an unrecognized command byte is answered with
`RESPONSE_ERROR{UNKNOWN_COMMAND}`, and `DISCONNECT` with a bare
`RESPONSE_OK` carrying an empty payload. -/
theorem c6_dispatch_defaults :
    (∀ (fs : FileHandler) (rfh wfh : Packet → Except PyErr Packet) (p : Packet),
        p.command ∉ definedCommands →
        handle_packet fs rfh wfh p
          = error_response EC_UNKNOWN_COMMAND (unknownCommandMsg p.command))
    ∧ (∀ (fs : FileHandler) (rfh wfh : Packet → Except PyErr Packet)
        (flags : Nat) (payload : List Nat),
        handle_packet fs rfh wfh ⟨DISCONNECT, flags, payload⟩
          = ⟨RESPONSE_OK, 0, []⟩) :=
  ⟨handle_packet_unknown, handle_packet_disconnect⟩

theorem c6_dispatch_defaults_witness :
    ((0x7F : Nat) ∉ definedCommands)
    ∧ handle_packet trivFS trivH trivH ⟨0x7F, 0, []⟩
        = error_response EC_UNKNOWN_COMMAND (unknownCommandMsg 0x7F) :=
  ⟨by decide, c6_dispatch_defaults.1 trivFS trivH trivH ⟨0x7F, 0, []⟩ (by decide)⟩

/-- C7 counterexample: the payload `[0xFF]` is not valid UTF-8, so
`_handle_handshake`'s `payload.decode("utf-8")` raises and the dispatcher
answers `RESPONSE_ERROR{IO_ERROR}` — not `RESPONSE_OK` — refuting "whatever
byte sequence the client supplies ... it never returns an error". -/
theorem c7_handshake_counterexample :
    utf8Valid [255] = false
    ∧ handle_packet trivFS trivH trivH ⟨HANDSHAKE, 0, [255]⟩
        = error_response EC_IO_ERROR unicodeDecodeMsg
    ∧ (handle_packet trivFS trivH trivH ⟨HANDSHAKE, 0, [255]⟩).command = RESPONSE_ERROR
    ∧ (handle_packet trivFS trivH trivH ⟨HANDSHAKE, 0, [255]⟩).command ≠ RESPONSE_OK :=
  ⟨by decide,
   handle_packet_handshake_invalid trivFS trivH trivH 0 [255] (by decide),
   by decide, by decide⟩

/-- C7 as amended: for every payload that decodes as UTF-8 the handshake
answer is `RESPONSE_OK` with the fixed identity `PCEX-Server-1.0`,
independent of the payload; a payload that is not valid UTF-8 yields
`RESPONSE_ERROR{IO_ERROR}` instead. -/
theorem c7_handshake_amended :
    (∀ (fs : FileHandler) (rfh wfh : Packet → Except PyErr Packet)
        (flags : Nat) (payload : List Nat), utf8Valid payload = true →
        handle_packet fs rfh wfh ⟨HANDSHAKE, flags, payload⟩
          = ⟨RESPONSE_OK, 0, serverIdentity⟩)
    ∧ (∀ (fs : FileHandler) (rfh wfh : Packet → Except PyErr Packet)
        (flags : Nat) (payload : List Nat), utf8Valid payload = false →
        handle_packet fs rfh wfh ⟨HANDSHAKE, flags, payload⟩
          = error_response EC_IO_ERROR unicodeDecodeMsg) :=
  ⟨handle_packet_handshake_valid, handle_packet_handshake_invalid⟩

theorem c7_handshake_witness :
    utf8Valid [72, 105] = true
    ∧ handle_packet trivFS trivH trivH ⟨HANDSHAKE, 0, [72, 105]⟩
        = ⟨RESPONSE_OK, 0, serverIdentity⟩ :=
  ⟨by decide, c7_handshake_amended.1 trivFS trivH trivH 0 [72, 105] (by decide)⟩

/-- C8 counterexample: in explicit forward mode with the device check and
tunnel setup succeeding but all ten outward connect attempts failing, the
routine returns without any transport — it does not degrade to SIMULATE. -/
theorem c8_mode_fallback_counterexample :
    start_forward_mode failingForward = ModeResult.noTransport
    ∧ ModeResult.noTransport ≠ ModeResult.simulate :=
  ⟨by decide, by decide⟩

/-- C8 as amended: only the early failure paths degrade to SIMULATE — the
ADB device-check failure in adb and forward modes, and missing
pyusb/libusb-backend in usb mode. Forward-mode tunnel-setup failure and
exhausted connect retries return with no transport, as does an adb-mode
port-bind failure. -/
theorem c8_mode_fallback_amended :
    (∀ p : Provisioner,
        start_forward_mode p = ModeResult.simulate ↔ p.adbDeviceReady = false)
    ∧ (∀ p : Provisioner, p.adbDeviceReady = true → p.forwardSetupOk = true →
        (List.range 10).any p.connectOk = false →
        start_forward_mode p = ModeResult.noTransport)
    ∧ (∀ p : Provisioner, p.adbDeviceReady = true → p.forwardSetupOk = false →
        start_forward_mode p = ModeResult.noTransport)
    ∧ (∀ p : Provisioner,
        start_adb_mode p = ModeResult.simulate ↔ p.adbDeviceReady = false)
    ∧ (∀ p : Provisioner, p.adbDeviceReady = true → p.bindOk = false →
        start_adb_mode p = ModeResult.noTransport)
    ∧ (∀ p : Provisioner, start_usb_mode p = ModeResult.simulate
        ↔ (p.pyusbOk = false ∨ p.usbBackendOk = false)) := by
  refine ⟨?_, ?_, ?_, ?_, ?_, ?_⟩
  · intro p
    cases ha : p.adbDeviceReady
    · simp [start_forward_mode, ha]
    · cases hf : p.forwardSetupOk
      · simp [start_forward_mode, connect_via_adb_forward, ha, hf]
      · cases hc : (List.range 10).any p.connectOk
        · simp [start_forward_mode, connect_via_adb_forward, ha, hf, hc]
        · simp [start_forward_mode, connect_via_adb_forward, ha, hf, hc]
  · intro p ha hf hc
    simp [start_forward_mode, connect_via_adb_forward, ha, hf, hc]
  · intro p ha hf
    simp [start_forward_mode, connect_via_adb_forward, ha, hf]
  · intro p
    cases ha : p.adbDeviceReady
    · simp [start_adb_mode, ha]
    · cases hb : p.bindOk
      · simp [start_adb_mode, start_tcp_server_with_adb_reverse, ha, hb]
      · simp [start_adb_mode, start_tcp_server_with_adb_reverse, ha, hb]
  · intro p ha hb
    simp [start_adb_mode, start_tcp_server_with_adb_reverse, ha, hb]
  · intro p
    cases hu : p.pyusbOk
    · simp [start_usb_mode, hu]
    · cases hb : p.usbBackendOk
      · simp [start_usb_mode, hu, hb]
      · simp [start_usb_mode, hu, hb]

theorem c8_mode_fallback_witness :
    (failingForward.adbDeviceReady = true ∧ failingForward.forwardSetupOk = true
      ∧ (List.range 10).any failingForward.connectOk = false)
    ∧ start_forward_mode failingForward = ModeResult.noTransport :=
  ⟨⟨rfl, rfl, by decide⟩,
   c8_mode_fallback_amended.2.1 failingForward rfl rfl (by decide)⟩

/-- C9: the GET_FILE_INFO response payload is the one-item file-list
encoding with its final 4 bytes removed — the whole count prefix and item
remain except the upper 4 bytes of the `u64` `last_modified` field — so the
item part is not a well-formed file-item encoding. -/
theorem c9_get_file_info_truncated (fs : FileHandler) (p : Packet) (pth : List Nat)
    (info : FileItem)
    (hpath : deserialize_path p.payload = Except.ok pth)
    (hinfo : fs.getFileInfo pth = Except.ok info)
    (hn : info.name.length < 4294967296) (hp : info.path.length < 4294967296) :
    handle_get_file_info fs p
      = Except.ok ⟨RESPONSE_DATA, 0,
          (serialize_file_list [info]).take ((serialize_file_list [info]).length - 4)⟩
    ∧ (serialize_file_list [info]).take ((serialize_file_list [info]).length - 4)
        = u32le 1
          ++ (serialize_file_item info).take ((serialize_file_item info).length - 4)
    ∧ (serialize_file_item info).drop ((serialize_file_item info).length - 4)
        = (u64le info.lastModified).drop 4
    ∧ item_well_formed (serialize_file_item info) = true
    ∧ item_well_formed ((serialize_file_item info).take
        ((serialize_file_item info).length - 4)) = false :=
  ⟨handle_get_file_info_eq fs p pth info hpath hinfo,
   get_file_info_payload_split info,
   (serialize_file_item_truncate info).2,
   serialize_file_item_well_formed info hn hp,
   serialize_file_item_truncated_ill_formed info hn hp⟩

theorem c9_get_file_info_truncated_witness :
    (deserialize_path ((⟨GET_FILE_INFO, 0, u32le 1 ++ [65]⟩ : Packet).payload)
        = Except.ok [65]
      ∧ infoFS.getFileInfo [65] = Except.ok item0
      ∧ item0.name.length < 4294967296 ∧ item0.path.length < 4294967296)
    ∧ item_well_formed ((serialize_file_item item0).take
        ((serialize_file_item item0).length - 4)) = false :=
  ⟨⟨by rfl, by rfl, by decide, by decide⟩,
   (c9_get_file_info_truncated infoFS ⟨GET_FILE_INFO, 0, u32le 1 ++ [65]⟩ [65] item0
     (by rfl) (by rfl) (by decide) (by decide)).2.2.2.2⟩

/-- C10: every SEARCH response is a `RESPONSE_DATA` file list of at most 100
entries — the item-count prefix of the response payload never exceeds 100,
however many walk candidates match. -/
theorem c10_search_capped (fs : FileHandler) (p : Packet) (q pth : List Nat)
    (h : deserialize_search p.payload = Except.ok (q, pth)) :
    handle_search fs p
      = Except.ok ⟨RESPONSE_DATA, 0,
          serialize_file_list (search_files (fs.searchWalk q pth))⟩
    ∧ (search_files (fs.searchWalk q pth)).length ≤ 100
    ∧ u32dec ((serialize_file_list (search_files (fs.searchWalk q pth))).take 4)
        ≤ 100 := by
  refine ⟨handle_search_eq fs p q pth h, search_files_le _, ?_⟩
  rw [serialize_file_list_count _
    (by have := search_files_le (fs.searchWalk q pth); omega)]
  exact search_files_le _

theorem c10_search_capped_witness :
    deserialize_search ((⟨SEARCH, 0, u32le 0 ++ u32le 0⟩ : Packet).payload)
        = Except.ok (([] : List Nat), ([] : List Nat))
    ∧ u32dec ((serialize_file_list (search_files (trivFS.searchWalk [] []))).take 4)
        ≤ 100 :=
  ⟨by rfl,
   (c10_search_capped trivFS ⟨SEARCH, 0, u32le 0 ++ u32le 0⟩ [] [] (by rfl)).2.2⟩

end PCExplorer
